import Mathlib

/-!
Shallow embedding of `src/wavemeta.py` (wav-file metadata extractor).

Python `int` is modelled as `Int`/`Nat` (Python integers are arbitrary
precision), Python `float` as exact rationals `ℚ`, Python `dict` as an
insertion-ordered association list, a Python function that can raise an
uncaught exception as `Except Unit _` (`.error ()` models the raised
exception), and a function that can return `None` as `Option _`.
-/

/-- A value stored in the metadata dictionary built by `WavMetadata.as_dict`:
a Python `int`, a Python `float` (modelled as an exact rational), or a
Python `str`. -/
inductive JVal where
  | int (n : Int)
  | num (q : ℚ)
  | str (s : String)
deriving DecidableEq, Repr

/-- The raw header values one `WavMetadata` object reads from its wav file in
`WavMetadata._populate_metadata` (the `wave` standard-library reader returns
non-negative integers for the numeric fields and strings for the compression
tag and name). -/
structure WavMetadata where
  bytes_per_sample : Nat
  comp_name : String
  comp_type : String
  num_channels : Nat
  num_frames : Nat
  sample_freq : Nat
deriving DecidableEq, Repr

-- The `Masks` enum of the source: one bit per catalog field.
namespace Masks

def NONE : Nat := 0
def NUM_CHANNELS : Nat := 1
def BYTES : Nat := 1 <<< 1
def BITS : Nat := 1 <<< 2
def FREQ : Nat := 1 <<< 3
def FREQK : Nat := 1 <<< 4
def LENGTH : Nat := 1 <<< 5
def LENGTH_M : Nat := 1 <<< 6
def LENGTH_U : Nat := 1 <<< 7
def NUM_FRAMES : Nat := 1 <<< 8
def COMP_NAME : Nat := 1 <<< 9
def COMP_TYPE : Nat := 1 <<< 10

/-- `max(Masks)`: the enum member with the largest value (the source's
`Masks` defines `__lt__` and friends by comparing `value`), i.e.
`COMP_TYPE = 1024`. -/
def maxMask : Nat := COMP_TYPE

end Masks

/-- The value the source's sentinel loop leaves in `flags` when `flags == 0`:
`for i in range(1, max(Masks).value + 1): flags |= 1 << i`
(i.e. it ORs in bit `i` for every `i` from `1` to `1024` inclusive). -/
def allFlagsSentinel : Nat :=
  (List.range' 1 Masks.maxMask).foldl (fun fl i => fl ||| (1 <<< i)) 0

/-- The body of `WavMetadata.as_dict` that populates the dictionary: one
membership test of `flags` against each mask, inserting the field's display
name and derived value in the source's fixed textual order.  A Python dict
iterates in insertion order, so the dict is modelled as the association list
produced by these conditional appends. -/
def entries (w : WavMetadata) (f : Nat) : List (String × JVal) :=
  (if f &&& Masks.NUM_CHANNELS ≠ 0 then
    [("Number Of Channels", JVal.int w.num_channels)] else []) ++
  (if f &&& Masks.BYTES ≠ 0 then
    [("Bytes Per Sample", JVal.int w.bytes_per_sample)] else []) ++
  (if f &&& Masks.BITS ≠ 0 then
    [("Bits Per Sample", JVal.int (w.bytes_per_sample * 8))] else []) ++
  (if f &&& Masks.FREQ ≠ 0 then
    [("Sample Rate (Hz)", JVal.int w.sample_freq)] else []) ++
  (if f &&& Masks.FREQK ≠ 0 then
    [("Sample Rate (kHz)", JVal.num ((w.sample_freq : ℚ) / 1000))] else []) ++
  (if f &&& Masks.LENGTH ≠ 0 then
    [("Time Between Samples (s)", JVal.num (1 / (w.sample_freq : ℚ)))] else []) ++
  (if f &&& Masks.LENGTH_M ≠ 0 then
    [("Time Between Samples (ms)", JVal.num (1 / (w.sample_freq : ℚ) * 10 ^ 3))] else []) ++
  (if f &&& Masks.LENGTH_U ≠ 0 then
    [("Time Between Samples (us)", JVal.num (1 / (w.sample_freq : ℚ) * 10 ^ 6))] else []) ++
  (if f &&& Masks.NUM_FRAMES ≠ 0 then
    [("Number Of Samples", JVal.int w.num_frames)] else []) ++
  (if f &&& Masks.COMP_NAME ≠ 0 then
    [("Compression Name", JVal.str w.comp_name)] else []) ++
  (if f &&& Masks.COMP_TYPE ≠ 0 then
    [("Compression Type", JVal.str w.comp_type)] else [])

/-- `WavMetadata.as_dict`.  Returns `none` (Python `None`) when
`flags < Masks.NONE.value or flags > max(Masks).value`; the source's
`flags is None` test sits after the `<` comparison and is dead code
(a `None` argument would already have raised in the comparison), so `flags`
is modelled as an `Int`.  When `flags == 0` the sentinel loop replaces it
with `allFlagsSentinel` before the dictionary is populated. -/
def as_dict (w : WavMetadata) (flags : Int) : Option (List (String × JVal)) :=
  if flags < (Masks.NONE : Int) ∨ flags > (Masks.maxMask : Int) then none
  else
    let f : Nat := if flags = 0 then allFlagsSentinel else flags.toNat
    some (entries w f)

/-- `make_flags`: builds the bitmask from the eleven named booleans, in the
source's parameter order (note the source ORs `comp_type` in at bit 9 and
`comp_name` at bit 10). -/
def make_flags (num_channels : Bool := false) (bytes_per_sample : Bool := false)
    (bits_per_sample : Bool := false) (sample_freq : Bool := false)
    (sample_freq_kHz : Bool := false) (sample_length : Bool := false)
    (sample_length_millis : Bool := false) (sample_length_micros : Bool := false)
    (num_frames : Bool := false) (comp_type : Bool := false)
    (comp_name : Bool := false) : Int :=
  ((0 |||
    num_channels.toNat |||
    bytes_per_sample.toNat <<< 1 |||
    bits_per_sample.toNat <<< 2 |||
    sample_freq.toNat <<< 3 |||
    sample_freq_kHz.toNat <<< 4 |||
    sample_length.toNat <<< 5 |||
    sample_length_millis.toNat <<< 6 |||
    sample_length_micros.toNat <<< 7 |||
    num_frames.toNat <<< 8 |||
    comp_type.toNat <<< 9 |||
    comp_name.toNat <<< 10 : Nat) : Int)



/-! ### Rendering of values as text

Python renders an `int` in decimal.  A Python `float` is modelled as an exact
rational, rendered injectively as `numerator/denominator`; the precise text
Python's float `repr` would produce is immaterial to every claim below, which
only need the rendering to be an injective function of the value. -/

/-- The decimal digit character for `d < 10`. -/
def digitChar (d : Nat) : Char := Char.ofNat (48 + d)

/-- Digit-by-digit decimal rendering, most significant digit first; the fuel
argument only bounds the recursion depth (any fuel at least the number of
digits gives the same output). -/
def natRenderAux : Nat → Nat → List Char
  | 0, _ => []
  | fuel + 1, n =>
    if n = 0 then [] else natRenderAux fuel (n / 10) ++ [digitChar (n % 10)]

/-- Decimal rendering of a natural number, most significant digit first. -/
def natRender (n : Nat) : List Char :=
  if n = 0 then ['0'] else natRenderAux n n

/-- Decimal rendering of an integer. -/
def intRender (i : Int) : List Char :=
  if i < 0 then '-' :: natRender i.natAbs else natRender i.toNat

/-- Injective rendering of a rational as `numerator/denominator`. -/
def ratRender (q : ℚ) : List Char := intRender q.num ++ '/' :: natRender q.den

/-- Python `str(value)` (an f-string interpolation) of a dictionary value:
ints in decimal, floats by their numeric repr (modelled exactly), strings
unchanged (no quoting). -/
def pyStr : JVal → String
  | .int n => ⟨intRender n⟩
  | .num q => ⟨ratRender q⟩
  | .str s => s

/-- The module-level constant `ENDL = '\n'`. -/
def ENDL : String := "\n"

/-- `WavMetadata.as_csv_string`: iterates `self.as_dict(flags).items()`,
appending one `name,value` line per entry.  When `as_dict` returns `None`
the attribute access `.items()` on `None` raises an uncaught
`AttributeError`, modelled as `.error ()`; a string is returned only via
`.ok`. -/
def as_csv_string (w : WavMetadata) (flags : Int) : Except Unit String :=
  match as_dict w flags with
  | none => .error ()
  | some m => .ok (m.foldl (fun data kv => data ++ kv.1 ++ "," ++ pyStr kv.2 ++ ENDL) "")

/-! ### JSON serialization (`json.dumps(..., sort_keys=True, indent=4)`)

`WavMetadata.as_json_string` delegates to the standard library's
`json.dumps` with `sort_keys=True` and `indent=4`.  That serializer is
modelled here: `None` renders as `null`; a dict renders as an object whose
keys are sorted lexicographically, one `    "key": value` line per entry,
entries separated by `,\n`, wrapped in `{`/`}` (an empty dict renders as
`{}`).  String values are quoted with `"` and escaped; the escaping is
modelled on the quote and backslash characters (Python additionally escapes
control and non-ASCII characters, which affects only which characters are
escaped, not the shape of the output or its parseability). -/

/-- JSON string escaping of one character. -/
def escapeChar (c : Char) : List Char :=
  if c = '"' ∨ c = '\\' then ['\\', c] else [c]

/-- JSON string escaping of a character sequence. -/
def escapeStr (s : List Char) : List Char := (s.map escapeChar).flatten

/-- A JSON string literal: escaped body wrapped in double quotes. -/
def quoteStr (s : String) : List Char := '"' :: (escapeStr s.data ++ ['"'])

/-- JSON rendering of one value. -/
def renderVal : JVal → List Char
  | .int n => intRender n
  | .num q => ratRender q
  | .str s => quoteStr s

/-- One `    "key": value` line of the indented object output. -/
def renderLine (kv : String × JVal) : List Char :=
  ' ' :: ' ' :: ' ' :: ' ' :: (quoteStr kv.1 ++ ':' :: ' ' :: renderVal kv.2)

/-- The entry lines of a non-empty object, separated by `,\n`. -/
def renderLines : List (String × JVal) → List Char
  | [] => []
  | [kv] => renderLine kv
  | kv :: rest => renderLine kv ++ ',' :: '\n' :: renderLines rest

/-- An object body: `{}` when empty, otherwise the indented multi-line form. -/
def dumpsObjChars : List (String × JVal) → List Char
  | [] => ['{', '}']
  | l => '{' :: '\n' :: (renderLines l ++ '\n' :: ['}'])

/-- Python's string comparison `a <= b`: lexicographic on code points, a
proper prefix comparing below. -/
def lexLE : List Char → List Char → Bool
  | [], _ => true
  | _ :: _, [] => false
  | a :: as, b :: bs =>
    if a.toNat < b.toNat then true
    else if b.toNat < a.toNat then false
    else lexLE as bs

/-- Python `a <= b` on strings. -/
def pyStrLE (a b : String) : Bool := lexLE a.data b.data

/-- The key order `sort_keys=True` uses: Python's lexicographic comparison
of the keys. -/
def keyLE (a b : String × JVal) : Prop := pyStrLE a.1 b.1 = true

instance : DecidableRel keyLE := fun _ _ => inferInstanceAs (Decidable (_ = true))

/-- `json.dumps(obj, sort_keys=True, indent=4)` for `obj` a metadata dict or
`None`. -/
def dumps : Option (List (String × JVal)) → String
  | none => "null"
  | some m => ⟨dumpsObjChars (List.insertionSort keyLE m)⟩

/-- `WavMetadata.as_json_string`. -/
def as_json_string (w : WavMetadata) (flags : Int) : String :=
  dumps (as_dict w flags)

/-! ### Multi-file aggregation (`convert_full_data_to_csv`) -/

/-- The header-collection loop of `convert_full_data_to_csv`: walks every
file's dict in order and appends each display name not seen before. -/
def collectHeaders (full_data : List (String × List (String × JVal))) : List String :=
  full_data.foldl
    (fun acc fd =>
      fd.2.foldl (fun acc2 kv => if kv.1 ∈ acc2 then acc2 else acc2 ++ [kv.1]) acc)
    []

/-- `",".join(row)` over a row whose cells are `str | None`: Python's
`str.join` raises `TypeError` on a `None` element, modelled as `none`. -/
def pyJoin (sep : String) (row : List (Option String)) : Option String :=
  (row.mapM id).map (String.intercalate sep)

/-- `convert_full_data_to_csv`.  The input dict is modelled as an ordered
association list `filename -> dict`.  Header: first-seen display names,
sorted, with `Filename` inserted at position 0.  Each data row starts as
`[None] * num_cols`, gets the filename at index 0 and `str(value)` at the
column `header_row.index(name)` of each present field; rows are then
comma-joined and newline-joined.  A `None` left in a row makes the
comma-join raise (`none`). -/
def convert_full_data_to_csv
    (full_data : List (String × List (String × JVal))) : Option String :=
  let header_row := "Filename" ::
    List.insertionSort (fun a b => pyStrLE a b = true) (collectHeaders full_data)
  let num_cols := header_row.length
  let full_table := (header_row.map some) ::
    full_data.map (fun fd =>
      let row := (List.replicate num_cols (none : Option String)).set 0 (some fd.1)
      fd.2.foldl (fun r kv => r.set (header_row.indexOf kv.1) (some (pyStr kv.2))) row)
  ((full_table.mapM (pyJoin ","))).map (String.intercalate "\n")

/-! ### The field catalog -/

/-- The 11 display names in the fixed catalog order `as_dict` inserts them. -/
def catalogNames : List String :=
  ["Number Of Channels", "Bytes Per Sample", "Bits Per Sample",
   "Sample Rate (Hz)", "Sample Rate (kHz)", "Time Between Samples (s)",
   "Time Between Samples (ms)", "Time Between Samples (us)",
   "Number Of Samples", "Compression Name", "Compression Type"]

/-- A concrete record used to instantiate hypotheses of universally
quantified theorems: 2 bytes per sample, stereo, 44.1 kHz. -/
def sampleRecord : WavMetadata :=
  ⟨2, "not compressed", "NONE", 2, 44100, 44100⟩

/-- Python's float division: raises `ZeroDivisionError` (modelled `.error ()`)
when the divisor is zero. -/
def pyDiv (a b : ℚ) : Except Unit ℚ := if b = 0 then .error () else .ok (a / b)

/-- The dictionary body of `as_dict` with every division evaluated by
`pyDiv`, modelling that Python raises `ZeroDivisionError` instead of
producing a value when the divisor is zero.  Each division is attempted
exactly when its field's flag is set, mirroring the source's control flow
(`flags & Masks.X.value` guards the line containing the division); the
`.ok 0` defaults of unselected flags feed segments that are empty and are
never used. -/
def entriesChecked (w : WavMetadata) (f : Nat) : Except Unit (List (String × JVal)) :=
  (if f &&& Masks.FREQK ≠ 0 then pyDiv w.sample_freq 1000 else .ok 0).bind fun qk =>
  (if f &&& Masks.LENGTH ≠ 0 then pyDiv 1 w.sample_freq else .ok 0).bind fun qs =>
  (if f &&& Masks.LENGTH_M ≠ 0 then
    (pyDiv 1 w.sample_freq).map (· * 10 ^ 3) else .ok 0).bind fun qms =>
  (if f &&& Masks.LENGTH_U ≠ 0 then
    (pyDiv 1 w.sample_freq).map (· * 10 ^ 6) else .ok 0).bind fun qus =>
  .ok (
    (if f &&& Masks.NUM_CHANNELS ≠ 0 then
      [("Number Of Channels", JVal.int w.num_channels)] else []) ++
    (if f &&& Masks.BYTES ≠ 0 then
      [("Bytes Per Sample", JVal.int w.bytes_per_sample)] else []) ++
    (if f &&& Masks.BITS ≠ 0 then
      [("Bits Per Sample", JVal.int (w.bytes_per_sample * 8))] else []) ++
    (if f &&& Masks.FREQ ≠ 0 then
      [("Sample Rate (Hz)", JVal.int w.sample_freq)] else []) ++
    (if f &&& Masks.FREQK ≠ 0 then
      [("Sample Rate (kHz)", JVal.num qk)] else []) ++
    (if f &&& Masks.LENGTH ≠ 0 then
      [("Time Between Samples (s)", JVal.num qs)] else []) ++
    (if f &&& Masks.LENGTH_M ≠ 0 then
      [("Time Between Samples (ms)", JVal.num qms)] else []) ++
    (if f &&& Masks.LENGTH_U ≠ 0 then
      [("Time Between Samples (us)", JVal.num qus)] else []) ++
    (if f &&& Masks.NUM_FRAMES ≠ 0 then
      [("Number Of Samples", JVal.int w.num_frames)] else []) ++
    (if f &&& Masks.COMP_NAME ≠ 0 then
      [("Compression Name", JVal.str w.comp_name)] else []) ++
    (if f &&& Masks.COMP_TYPE ≠ 0 then
      [("Compression Type", JVal.str w.comp_type)] else []))

/-- `as_dict` with the divisions checked: same rejection test and sentinel,
body evaluated by `entriesChecked`. -/
def as_dict_checked (w : WavMetadata) (flags : Int) :
    Except Unit (Option (List (String × JVal))) :=
  if flags < (Masks.NONE : Int) ∨ flags > (Masks.maxMask : Int) then .ok none
  else
    let f : Nat := if flags = 0 then allFlagsSentinel else flags.toNat
    (entriesChecked w f).map some

/-! ### A JSON parser for the serializer's output

To state C6 (the serialize/parse/serialize round trip) executably, a parser
for the exact output format of `dumps` is defined and proved to be its left
inverse.  Everything is plain structural recursion on character lists. -/

/-- Parses a JSON string body after the opening quote, un-escaping, up to
and including the closing quote; returns the body and the rest. -/
def parseStrBody : List Char → Option (List Char × List Char)
  | [] => none
  | c :: rest =>
    if c = '"' then some ([], rest)
    else if c = '\\' then
      match rest with
      | [] => none
      | c2 :: rest2 => (parseStrBody rest2).map (fun p => (c2 :: p.1, p.2))
    else (parseStrBody rest).map (fun p => (c :: p.1, p.2))

/-- The value of a most-significant-first digit string. -/
def natParse (ds : List Char) : Nat :=
  ds.foldl (fun a c => a * 10 + (c.toNat - 48)) 0

/-- Parses a non-empty maximal run of decimal digits. -/
def parseNat? (l : List Char) : Option (Nat × List Char) :=
  if (l.takeWhile Char.isDigit).isEmpty then none
  else some (natParse (l.takeWhile Char.isDigit), l.dropWhile Char.isDigit)

/-- Parses an optionally negated decimal integer. -/
def parseInt? (l : List Char) : Option (Int × List Char) :=
  if l.head? = some '-' then (parseNat? l.tail).map (fun p => (-(p.1 : Int), p.2))
  else (parseNat? l).map (fun p => ((p.1 : Int), p.2))

/-- Parses one rendered value: a quoted string, or a number
(`numerator/denominator` for a rational, plain digits for an integer). -/
def parseVal (l : List Char) : Option (JVal × List Char) :=
  if l.head? = some '"' then
    (parseStrBody l.tail).map (fun p => (JVal.str ⟨p.1⟩, p.2))
  else
    (parseInt? l).bind fun p =>
      if p.2.head? = some '/' then
        (parseNat? p.2.tail).map (fun p2 => (JVal.num ((p.1 : ℚ) / (p2.1 : ℚ)), p2.2))
      else some (JVal.int p.1, p.2)

/-- Parses one indented `    "key": value` entry line. -/
def parseEntry (l : List Char) : Option ((String × JVal) × List Char) :=
  match l with
  | ' ' :: ' ' :: ' ' :: ' ' :: '"' :: l1 =>
    (parseStrBody l1).bind fun pk =>
      match pk.2 with
      | ':' :: ' ' :: l2 => (parseVal l2).map fun pv => ((⟨pk.1⟩, pv.1), pv.2)
      | _ => none
  | _ => none

/-- Parses the entry lines of a non-empty object, separated by `,\n` and
terminated by `\n}`; the fuel only bounds the recursion depth (one unit per
entry). -/
def parseEntryList : Nat → List Char → Option (List (String × JVal) × List Char)
  | 0, _ => none
  | fuel + 1, l =>
    (parseEntry l).bind fun pe =>
      match pe.2 with
      | ',' :: '\n' :: r => (parseEntryList fuel r).map fun pr => (pe.1 :: pr.1, pr.2)
      | '\n' :: '}' :: r => some ([pe.1], r)
      | _ => none

/-- Parses the output of `dumps`: `null`, the empty object, or a non-empty
indented object whose entries must consume the whole input. -/
def parseDumps (s : String) : Option (Option (List (String × JVal))) :=
  match s.data with
  | 'n' :: 'u' :: 'l' :: 'l' :: [] => some none
  | '{' :: '}' :: [] => some (some [])
  | '{' :: '\n' :: rest =>
    match parseEntryList rest.length rest with
    | some (es, []) => some (some es)
    | _ => none
  | _ => none

/-! ### Lemmas and claim theorems -/

set_option exponentiation.threshold 1100 in
set_option maxRecDepth 8000 in
lemma allFlagsSentinel_eq : allFlagsSentinel = 2 ^ 1025 - 2 := by decide

lemma lexLE_total (as : List Char) : ∀ bs, lexLE as bs = true ∨ lexLE bs as = true := by
  induction as with
  | nil => intro bs; left; rfl
  | cons a as ih =>
    intro bs
    cases bs with
    | nil => right; rfl
    | cons b bs =>
      by_cases hab : a.toNat < b.toNat
      · left; simp [lexLE, hab]
      · by_cases hba : b.toNat < a.toNat
        · right; simp [lexLE, hba]
        · rcases ih bs with h | h
          · left; simp [lexLE, hab, hba, h]
          · right; simp [lexLE, hab, hba, h]

lemma lexLE_trans (as : List Char) :
    ∀ bs cs, lexLE as bs = true → lexLE bs cs = true → lexLE as cs = true := by
  induction as with
  | nil => intro bs cs _ _; rfl
  | cons a as ih =>
    intro bs cs hab hbc
    cases bs with
    | nil => simp [lexLE] at hab
    | cons b bs =>
      cases cs with
      | nil => simp [lexLE] at hbc
      | cons c cs =>
        simp only [lexLE] at hab hbc ⊢
        by_cases h1 : a.toNat < b.toNat <;> by_cases h1' : b.toNat < a.toNat <;>
          by_cases h2 : b.toNat < c.toNat <;> by_cases h2' : c.toNat < b.toNat <;>
          simp [h1, h1', h2, h2'] at hab hbc <;>
          first
          | rw [if_pos (show a.toNat < c.toNat by omega)]
          | (rw [if_neg (show ¬ a.toNat < c.toNat by omega),
                 if_neg (show ¬ c.toNat < a.toNat by omega)]
             exact ih bs cs hab hbc)

instance : IsTotal (String × JVal) keyLE := ⟨fun a b => lexLE_total a.1.data b.1.data⟩

instance : IsTrans (String × JVal) keyLE :=
  ⟨fun a b c => lexLE_trans a.1.data b.1.data c.1.data⟩

set_option maxRecDepth 8000 in
/-- The sentinel misses bit 0: the dictionary built for `flags = 0` holds the
ten catalog fields other than `Number Of Channels`. -/
lemma entries_sentinel (w : WavMetadata) :
    entries w allFlagsSentinel =
      [("Bytes Per Sample", JVal.int w.bytes_per_sample),
       ("Bits Per Sample", JVal.int (w.bytes_per_sample * 8)),
       ("Sample Rate (Hz)", JVal.int w.sample_freq),
       ("Sample Rate (kHz)", JVal.num ((w.sample_freq : ℚ) / 1000)),
       ("Time Between Samples (s)", JVal.num (1 / (w.sample_freq : ℚ))),
       ("Time Between Samples (ms)", JVal.num (1 / (w.sample_freq : ℚ) * 10 ^ 3)),
       ("Time Between Samples (us)", JVal.num (1 / (w.sample_freq : ℚ) * 10 ^ 6)),
       ("Number Of Samples", JVal.int w.num_frames),
       ("Compression Name", JVal.str w.comp_name),
       ("Compression Type", JVal.str w.comp_type)] := rfl

set_option maxRecDepth 8000 in
/-- C1: the claim states that `as_dict(0)` selects the whole 11-field catalog,
`Number Of Channels` included.  The code's sentinel loop `for i in range(1,
max(Masks).value + 1)` starts at bit 1, so bit 0 (`NUM_CHANNELS`) is never
set: for every record, `as_dict(0)` yields exactly the ten other catalog
fields, and the channel-count field is missing.  This theorem evaluates the
code at the failing input `flags = 0`. -/
theorem as_dict_zero_omits_channel_count (w : WavMetadata) :
    (as_dict w 0).map (List.map Prod.fst) = some catalogNames.tail := by
  rw [show as_dict w 0 = some (entries w allFlagsSentinel) from rfl, entries_sentinel]
  rfl

/-- C2: the claim states that each named boolean of `make_flags` controls its
own field, in particular that `comp_type` selects the compression-type field.
The code ORs `comp_type` in at bit 9 and `comp_name` at bit 10, while the
`Masks` enum assigns bit 9 to `COMP_NAME` and bit 10 to `COMP_TYPE`: the two
booleans are swapped.  Evaluating the code at the failing input (only
`comp_type` true) produces flags 512, which selects `Compression Name`;
only `comp_name` true produces 1024, which selects `Compression Type`. -/
theorem make_flags_comp_booleans_swapped :
    make_flags false false false false false false false false false true false = 512 ∧
    make_flags false false false false false false false false false false true = 1024 ∧
    (∀ w : WavMetadata,
      as_dict w 512 = some [("Compression Name", JVal.str w.comp_name)] ∧
      as_dict w 1024 = some [("Compression Type", JVal.str w.comp_type)]) :=
  ⟨rfl, rfl, fun _ => ⟨rfl, rfl⟩⟩

/-- C3: the claim states that `as_dict` accepts every flags value from 0
through 2047 (the maximum combination of all 11 fields) and rejects only
negative values and values above 2047.  The code compares against
`max(Masks).value = 1024` (the largest single mask), so every combined value
from 1025 through 2047 is also rejected: `make_flags` with all eleven
booleans true yields 2047, and `as_dict(2047)` returns `None` instead of the
full catalog.  This theorem evaluates the code at the failing inputs 2047
and 1025 (both valid combinations per the claim), and also shows the
boundary behaviour the code does have. -/
theorem as_dict_rejects_valid_combinations_above_1024 :
    make_flags true true true true true true true true true true true = 2047 ∧
    (∀ w : WavMetadata,
      as_dict w 2047 = none ∧
      as_dict w 1025 = none ∧
      as_dict w (-1) = none ∧
      as_dict w 2048 = none ∧
      (as_dict w 1024).isSome = true) :=
  ⟨rfl, fun _ => ⟨rfl, rfl, rfl, rfl, rfl⟩⟩

/-- The keys contributed by one conditional insertion are a sublist of the
singleton holding that field's name. -/
lemma ite_map_fst_sublist {c : Prop} [Decidable c] (p : String × JVal) :
    (((if c then [p] else []).map Prod.fst)).Sublist [p.1] := by
  split <;> simp

/-- The keys of the dictionary body are, in order, a sublist of the catalog
order, whatever the flags. -/
lemma entries_keys_sublist (w : WavMetadata) (f : Nat) :
    ((entries w f).map Prod.fst).Sublist catalogNames := by
  unfold entries
  simp only [List.map_append]
  exact ((((((((((ite_map_fst_sublist _).append
    (ite_map_fst_sublist _)).append
    (ite_map_fst_sublist _)).append
    (ite_map_fst_sublist _)).append
    (ite_map_fst_sublist _)).append
    (ite_map_fst_sublist _)).append
    (ite_map_fst_sublist _)).append
    (ite_map_fst_sublist _)).append
    (ite_map_fst_sublist _)).append
    (ite_map_fst_sublist _)).append
    (ite_map_fst_sublist _)

/-- C7: for every flags value `as_dict` accepts, the insertion order of the
returned map follows the fixed catalog order (channel count first, …,
compression type last among those selected): the key sequence is a sublist
of the catalog-ordered name list, independent of which subset is selected. -/
theorem as_dict_keys_follow_catalog_order (w : WavMetadata) (flags : Int)
    (m : List (String × JVal)) (h : as_dict w flags = some m) :
    (m.map Prod.fst).Sublist catalogNames := by
  unfold as_dict at h
  split at h
  · exact absurd h (by simp)
  · cases h
    exact entries_keys_sublist _ _

/-- Witness for C7 at the concrete record and `flags = 5`
(channel count and bits per sample). -/
theorem as_dict_keys_follow_catalog_order_witness :
    as_dict sampleRecord 5 =
      some [("Number Of Channels", JVal.int 2), ("Bits Per Sample", JVal.int 16)] ∧
    (([("Number Of Channels", JVal.int 2),
       ("Bits Per Sample", JVal.int 16)]).map Prod.fst).Sublist catalogNames :=
  ⟨rfl, as_dict_keys_follow_catalog_order sampleRecord 5 _ rfl⟩

/-- C8: aggregating an empty collection yields only the `Filename` header
cell and zero data rows. -/
theorem convert_empty_is_filename_header :
    convert_full_data_to_csv [] = some "Filename" := rfl

/-- C9: whenever `as_dict` rejects the flags (returns `None`),
`as_csv_string` with the same flags does not return a string: iterating
`None.items()` raises (modelled by `.error ()`), so the null-on-invalid
contract does not extend to the CSV exporter. -/
theorem as_csv_string_raises_on_invalid_flags (w : WavMetadata) (flags : Int)
    (h : as_dict w flags = none) :
    as_csv_string w flags = .error () := by
  unfold as_csv_string
  rw [h]

/-- Witness for C9 at the concrete record and the rejected value `-1`. -/
theorem as_csv_string_raises_on_invalid_flags_witness :
    as_csv_string sampleRecord (-1) = .error () :=
  as_csv_string_raises_on_invalid_flags sampleRecord (-1) rfl

/-- C4: the claim states that aggregating files with different (possibly
disjoint) field selections yields a rectangular table with empty cells for
the fields a file did not select.  The code pre-fills each row with
`[None] * num_cols` but never replaces the `None` of an unselected column
with an empty string, so `",".join(row)` raises `TypeError` on the first
file that lacks some header field: on the two-file input where `a` selects
only the channel count and `b` selects only the sample rate (the spec's own
end-to-end example) the function raises instead of returning the table.
This theorem evaluates the code at that failing input. -/
theorem convert_disjoint_selections_raises :
    convert_full_data_to_csv
      [("a", [("Number Of Channels", JVal.int 2)]),
       ("b", [("Sample Rate (Hz)", JVal.int 44100)])] = none ∧
    convert_full_data_to_csv
      [("a", [("Number Of Channels", JVal.int 2)]),
       ("b", [("Number Of Channels", JVal.int 6)])] =
      some "Filename,Number Of Channels\na,2\nb,6" := by
  constructor <;> decide

/-- Membership in a conditional singleton insertion. -/
lemma mem_ite_nil {α : Type} {c : Prop} [Decidable c] {x p : α} :
    x ∈ (if c then [p] else []) ↔ c ∧ x = p := by
  split <;> simp_all

lemma entries_bits_val (w : WavMetadata) (f : Nat) (v : JVal)
    (h : ("Bits Per Sample", v) ∈ entries w f) :
    v = JVal.int (w.bytes_per_sample * 8) := by
  simp [entries, mem_ite_nil] at h
  exact h.2

lemma entries_khz_val (w : WavMetadata) (f : Nat) (v : JVal)
    (h : ("Sample Rate (kHz)", v) ∈ entries w f) :
    v = JVal.num ((w.sample_freq : ℚ) / 1000) := by
  simp [entries, mem_ite_nil] at h
  exact h.2

lemma entries_s_val (w : WavMetadata) (f : Nat) (v : JVal)
    (h : ("Time Between Samples (s)", v) ∈ entries w f) :
    v = JVal.num (1 / (w.sample_freq : ℚ)) := by
  simp [entries, mem_ite_nil] at h
  simpa using h.2

lemma entries_ms_val (w : WavMetadata) (f : Nat) (v : JVal)
    (h : ("Time Between Samples (ms)", v) ∈ entries w f) :
    v = JVal.num (1 / (w.sample_freq : ℚ) * 10 ^ 3) := by
  simp [entries, mem_ite_nil] at h
  simpa using h.2

lemma entries_us_val (w : WavMetadata) (f : Nat) (v : JVal)
    (h : ("Time Between Samples (us)", v) ∈ entries w f) :
    v = JVal.num (1 / (w.sample_freq : ℚ) * 10 ^ 6) := by
  simp [entries, mem_ite_nil] at h
  simpa using h.2

/-- Every dictionary `as_dict` returns is the conditional-insertion body for
some effective flags value. -/
lemma as_dict_eq_entries (w : WavMetadata) (flags : Int)
    (m : List (String × JVal)) (h : as_dict w flags = some m) :
    ∃ f, m = entries w f := by
  unfold as_dict at h
  split at h
  · exact absurd h (by simp)
  · cases h
    exact ⟨_, rfl⟩

/-- C5: the derived values obey the exact arithmetic rules: bits per sample
is bytes per sample times 8 in exact integer arithmetic, and with the stored
frame rate `f > 0` the kHz rate is `f / 1000`, the inter-sample period is
`1 / f`, and the millisecond and microsecond periods are the period times
`10^3` and `10^6` (all float expressions modelled as exact rationals; the
code computes `1.0 / f * 10 ** 3`, which is literally the period expression
scaled by 1000). -/
theorem as_dict_derived_value_rules (w : WavMetadata) (_hf : 0 < w.sample_freq)
    (flags : Int) (m : List (String × JVal)) (h : as_dict w flags = some m) :
    (∀ v, ("Bits Per Sample", v) ∈ m → v = JVal.int (w.bytes_per_sample * 8)) ∧
    (∀ v, ("Sample Rate (kHz)", v) ∈ m → v = JVal.num ((w.sample_freq : ℚ) / 1000)) ∧
    (∀ v, ("Time Between Samples (s)", v) ∈ m → v = JVal.num (1 / (w.sample_freq : ℚ))) ∧
    (∀ qs qms, ("Time Between Samples (s)", JVal.num qs) ∈ m →
      ("Time Between Samples (ms)", JVal.num qms) ∈ m → qms = qs * 1000) ∧
    (∀ qs qus, ("Time Between Samples (s)", JVal.num qs) ∈ m →
      ("Time Between Samples (us)", JVal.num qus) ∈ m → qus = qs * 1000000) := by
  obtain ⟨f, rfl⟩ := as_dict_eq_entries w flags m h
  refine ⟨fun v hv => entries_bits_val w f v hv,
          fun v hv => entries_khz_val w f v hv,
          fun v hv => entries_s_val w f v hv,
          fun qs qms hs hms => ?_, fun qs qus hs hus => ?_⟩
  · have h1 := entries_s_val w f _ hs
    have h2 := entries_ms_val w f _ hms
    simp only [JVal.num.injEq] at h1 h2
    rw [h1, h2]; ring
  · have h1 := entries_s_val w f _ hs
    have h2 := entries_us_val w f _ hus
    simp only [JVal.num.injEq] at h1 h2
    rw [h1, h2]; ring

set_option maxRecDepth 8000 in
/-- Witness for C5 at the concrete record: 2 bytes per sample derive 16 bits
per sample. -/
theorem as_dict_derived_value_rules_witness :
    0 < sampleRecord.sample_freq ∧
    JVal.int 16 = JVal.int (sampleRecord.bytes_per_sample * 8) :=
  ⟨by decide,
   (as_dict_derived_value_rules sampleRecord (by decide) 0 _ rfl).1
     (JVal.int 16) (by decide)⟩

/-- With a positive sample frequency no division raises, and the checked
body agrees with the total-rational body `entries`. -/
lemma entriesChecked_pos (w : WavMetadata) (f : Nat) (hf : 0 < w.sample_freq) :
    entriesChecked w f = .ok (entries w f) := by
  have hne : (w.sample_freq : ℚ) ≠ 0 := by
    exact_mod_cast Nat.pos_iff_ne_zero.mp hf
  by_cases h16 : f &&& Masks.FREQK ≠ 0 <;>
    by_cases h32 : f &&& Masks.LENGTH ≠ 0 <;>
    by_cases h64 : f &&& Masks.LENGTH_M ≠ 0 <;>
    by_cases h128 : f &&& Masks.LENGTH_U ≠ 0 <;>
    simp [entriesChecked, entries, pyDiv, hne, h16, h32, h64, h128,
      Except.bind, Except.map, show (1000 : ℚ) ≠ 0 by norm_num]

/-- C10: for every record with a positive stored sample frequency, the three
divisions by the frequency in the period derivations (and the kHz division)
are well-defined — evaluating `as_dict` under Python's raising division
semantics (`as_dict_checked`) never raises and returns exactly what the
total model returns.  The code contains no guard: the second conjunct shows
a zero-frequency record on which the very same code raises
`ZeroDivisionError`, so totality rests entirely on the positivity
precondition. -/
theorem as_dict_divisions_welldefined :
    (∀ (w : WavMetadata) (flags : Int), 0 < w.sample_freq →
      as_dict_checked w flags = .ok (as_dict w flags)) ∧
    as_dict_checked ⟨1, "", "", 1, 1, 0⟩ 32 = .error () := by
  constructor
  · intro w flags hf
    unfold as_dict_checked as_dict
    split
    · rfl
    · simp only [entriesChecked_pos w _ hf, Except.map]
  · rfl

/-- Witness for C10 at the concrete record and `flags = 32` (the
inter-sample period field, whose derivation divides by the frequency). -/
theorem as_dict_divisions_welldefined_witness :
    as_dict_checked sampleRecord 32 = .ok (as_dict sampleRecord 32) :=
  as_dict_divisions_welldefined.1 sampleRecord 32 (by decide)

lemma digitChar_toNat (d : Nat) (hd : d < 10) : (digitChar d).toNat = 48 + d := by
  interval_cases d <;> decide

lemma digitChar_isDigit (d : Nat) (hd : d < 10) : (digitChar d).isDigit = true := by
  interval_cases d <;> decide

lemma natRenderAux_digits (fuel : Nat) :
    ∀ n, ∀ c ∈ natRenderAux fuel n, c.isDigit = true := by
  induction fuel with
  | zero => intro n c hc; simp [natRenderAux] at hc
  | succ fuel ih =>
    intro n c hc
    unfold natRenderAux at hc
    split at hc
    · simp at hc
    · rcases List.mem_append.mp hc with h | h
      · exact ih _ c h
      · rcases List.mem_singleton.mp h with rfl
        exact digitChar_isDigit _ (Nat.mod_lt _ (by norm_num))

lemma natRender_digits (n : Nat) : ∀ c ∈ natRender n, c.isDigit = true := by
  unfold natRender
  split
  · intro c hc
    rcases List.mem_singleton.mp hc with rfl
    decide
  · exact natRenderAux_digits n n

lemma natRender_ne_nil (n : Nat) : natRender n ≠ [] := by
  unfold natRender
  split
  · simp
  · rename_i hn
    cases n with
    | zero => exact absurd rfl hn
    | succ m => simp [natRenderAux, hn]

lemma natRenderAux_foldl (fuel : Nat) :
    ∀ n acc, n ≤ fuel →
      (natRenderAux fuel n).foldl (fun a c => a * 10 + (c.toNat - 48)) acc =
        acc * 10 ^ (natRenderAux fuel n).length + n := by
  induction fuel with
  | zero =>
    intro n acc hn
    interval_cases n
    simp [natRenderAux]
  | succ fuel ih =>
    intro n acc hn
    unfold natRenderAux
    split
    · rename_i h; subst h; simp
    · rename_i h
      rw [List.foldl_append, ih (n / 10) acc (by omega)]
      simp only [List.foldl_cons, List.foldl_nil, List.length_append,
        List.length_cons, List.length_nil]
      rw [digitChar_toNat _ (Nat.mod_lt _ (by norm_num)), Nat.add_sub_cancel_left,
        pow_succ, ← mul_assoc]
      generalize acc * 10 ^ (natRenderAux fuel (n / 10)).length = A
      omega

lemma natParse_natRender (n : Nat) : natParse (natRender n) = n := by
  unfold natRender
  split
  · rename_i h; subst h; decide
  · unfold natParse
    rw [natRenderAux_foldl n n 0 le_rfl]
    simp

lemma takeWhile_dropWhile_append {p : Char → Bool} (l₁ l₂ : List Char)
    (h₁ : ∀ c ∈ l₁, p c = true) (h₂ : ∀ c, l₂.head? = some c → p c = false) :
    (l₁ ++ l₂).takeWhile p = l₁ ∧ (l₁ ++ l₂).dropWhile p = l₂ := by
  induction l₁ with
  | nil =>
    simp only [List.nil_append]
    cases l₂ with
    | nil => simp
    | cons c t =>
      have hc := h₂ c rfl
      simp [List.takeWhile_cons, List.dropWhile_cons, hc]
  | cons a l ih =>
    have ha := h₁ a (by simp)
    have ih' := ih (fun c hc => h₁ c (by simp [hc]))
    simp [List.takeWhile_cons, List.dropWhile_cons, ha, ih'.1, ih'.2]

lemma parseNat?_render (n : Nat) (rest : List Char)
    (h : ∀ c, rest.head? = some c → c.isDigit = false) :
    parseNat? (natRender n ++ rest) = some (n, rest) := by
  obtain ⟨ht, hd⟩ := takeWhile_dropWhile_append (natRender n) rest (natRender_digits n) h
  unfold parseNat?
  rw [ht, hd]
  simp [List.isEmpty_iff, natRender_ne_nil n, natParse_natRender n]

lemma natRender_head_digit (n : Nat) :
    ∃ c cs, natRender n = c :: cs ∧ c.isDigit = true := by
  cases hn : natRender n with
  | nil => exact absurd hn (natRender_ne_nil n)
  | cons c cs => exact ⟨c, cs, rfl, natRender_digits n c (by simp [hn])⟩

lemma parseInt?_render (i : Int) (rest : List Char)
    (h : ∀ c, rest.head? = some c → c.isDigit = false) :
    parseInt? (intRender i ++ rest) = some (i, rest) := by
  unfold intRender
  split
  · rename_i hi
    unfold parseInt?
    simp only [List.cons_append, List.head?_cons, List.tail_cons]
    rw [if_pos trivial, parseNat?_render _ rest h]
    simp only [Option.map_some', Option.some.injEq, Prod.mk.injEq]
    exact ⟨by omega, trivial⟩
  · rename_i hi
    obtain ⟨c, cs, hcons, hdig⟩ := natRender_head_digit i.toNat
    unfold parseInt?
    rw [hcons]
    simp only [List.cons_append, List.head?_cons]
    rw [if_neg (by
      intro hcontr
      rw [Option.some.injEq] at hcontr
      subst hcontr
      exact absurd hdig (by decide))]
    rw [← List.cons_append, ← hcons, parseNat?_render _ rest h]
    simp only [Option.map_some', Option.some.injEq, Prod.mk.injEq]
    exact ⟨by omega, trivial⟩

lemma escapeStr_nil : escapeStr [] = [] := rfl

lemma escapeStr_cons (c : Char) (cs : List Char) :
    escapeStr (c :: cs) = escapeChar c ++ escapeStr cs := by
  simp [escapeStr]

lemma parseStrBody_quote (rest : List Char) :
    parseStrBody ('"' :: rest) = some ([], rest) := by
  rw [parseStrBody.eq_def]
  simp

lemma parseStrBody_esc (c : Char) (rest : List Char) :
    parseStrBody ('\\' :: c :: rest) =
      (parseStrBody rest).map (fun p => (c :: p.1, p.2)) := by
  rw [parseStrBody.eq_def]
  simp

lemma parseStrBody_plain (c : Char) (rest : List Char) (h1 : c ≠ '"')
    (h2 : c ≠ '\\') :
    parseStrBody (c :: rest) =
      (parseStrBody rest).map (fun p => (c :: p.1, p.2)) := by
  rw [parseStrBody.eq_def]
  simp [h1, h2]

lemma parseStrBody_escape (s rest : List Char) :
    parseStrBody (escapeStr s ++ '"' :: rest) = some (s, rest) := by
  induction s with
  | nil =>
    rw [escapeStr_nil, List.nil_append, parseStrBody_quote]
  | cons c cs ih =>
    rw [escapeStr_cons]
    by_cases hc : c = '"' ∨ c = '\\'
    · rw [show escapeChar c = ['\\', c] from by simp [escapeChar, hc]]
      show parseStrBody ('\\' :: c :: (escapeStr cs ++ '"' :: rest)) = some (c :: cs, rest)
      rw [parseStrBody_esc, ih]
      rfl
    · push_neg at hc
      rw [show escapeChar c = [c] from by simp [escapeChar, hc.1, hc.2]]
      show parseStrBody (c :: (escapeStr cs ++ '"' :: rest)) = some (c :: cs, rest)
      rw [parseStrBody_plain c _ hc.1 hc.2, ih]
      rfl

lemma intRender_head (i : Int) :
    ∃ c cs, intRender i = c :: cs ∧ (c = '-' ∨ c.isDigit = true) := by
  unfold intRender
  split
  · exact ⟨'-', _, rfl, Or.inl rfl⟩
  · obtain ⟨c, cs, hc, hd⟩ := natRender_head_digit _
    exact ⟨c, cs, hc, Or.inr hd⟩

lemma parseVal_render (v : JVal) (rest : List Char)
    (hrest : rest.head? = some ',' ∨ rest.head? = some '\n') :
    parseVal (renderVal v ++ rest) = some (v, rest) := by
  have hdig : ∀ c, rest.head? = some c → c.isDigit = false := by
    intro c hcc
    rcases hrest with h | h <;> rw [h, Option.some.injEq] at hcc <;> subst hcc <;> decide
  have hslash : ¬ rest.head? = some '/' := by
    rcases hrest with h | h <;> simp [h]
  cases v with
  | int n =>
    obtain ⟨c, cs, hc, hd⟩ := intRender_head n
    simp only [renderVal]
    unfold parseVal
    rw [hc]
    simp only [List.cons_append, List.head?_cons]
    rw [if_neg (by
      intro hcontr
      rw [Option.some.injEq] at hcontr
      subst hcontr
      rcases hd with h | h
      · exact absurd h (by decide)
      · exact absurd h (by decide))]
    rw [← List.cons_append, ← hc, parseInt?_render n rest hdig]
    simp only [Option.some_bind]
    rw [if_neg hslash]
  | num q =>
    obtain ⟨c, cs, hc, hd⟩ := intRender_head q.num
    simp only [renderVal, ratRender]
    unfold parseVal
    rw [List.append_assoc, List.cons_append, hc]
    simp only [List.cons_append, List.head?_cons]
    rw [if_neg (by
      intro hcontr
      rw [Option.some.injEq] at hcontr
      subst hcontr
      rcases hd with h | h
      · exact absurd h (by decide)
      · exact absurd h (by decide))]
    rw [← List.cons_append, ← hc,
      parseInt?_render q.num ('/' :: (natRender q.den ++ rest))
        (by intro c' hc'; rw [List.head?_cons, Option.some.injEq] at hc'; subst hc'; decide)]
    simp only [Option.some_bind, List.head?_cons, List.tail_cons, if_true]
    rw [parseNat?_render q.den rest hdig]
    simp only [Option.map_some', Option.some.injEq, Prod.mk.injEq]
    exact ⟨by rw [Rat.num_div_den], trivial⟩
  | str s =>
    simp only [renderVal, quoteStr]
    unfold parseVal
    simp only [List.cons_append, List.head?_cons, List.tail_cons]
    rw [if_pos trivial, List.append_assoc]
    simp only [List.singleton_append]
    rw [parseStrBody_escape s.data rest]
    rfl

lemma parseEntry_render (kv : String × JVal) (rest : List Char)
    (hrest : rest.head? = some ',' ∨ rest.head? = some '\n') :
    parseEntry (renderLine kv ++ rest) = some (kv, rest) := by
  show parseEntry
      (' ' :: ' ' :: ' ' :: ' ' ::
        ((quoteStr kv.1 ++ ':' :: ' ' :: renderVal kv.2) ++ rest)) = some (kv, rest)
  rw [show (quoteStr kv.1 ++ ':' :: ' ' :: renderVal kv.2) ++ rest =
      '"' :: (escapeStr kv.1.data ++ '"' :: (':' :: ' ' :: (renderVal kv.2 ++ rest))) from by
    simp [quoteStr, List.cons_append, List.append_assoc]]
  show (parseStrBody
      (escapeStr kv.1.data ++ '"' :: (':' :: ' ' :: (renderVal kv.2 ++ rest)))).bind
      (fun pk =>
        match pk.2 with
        | ':' :: ' ' :: l2 => Option.map (fun pv => ((⟨pk.1⟩, pv.1), pv.2)) (parseVal l2)
        | _ => none) = some (kv, rest)
  rw [parseStrBody_escape]
  simp only [Option.some_bind]
  show Option.map (fun pv => ((⟨kv.1.data⟩, pv.1), pv.2)) (parseVal (renderVal kv.2 ++ rest)) =
    some (kv, rest)
  rw [parseVal_render kv.2 rest hrest]
  rfl

lemma renderLines_length_le (l : List (String × JVal)) :
    l.length ≤ (renderLines l).length := by
  induction l with
  | nil => simp [renderLines]
  | cons kv t ih =>
    cases t with
    | nil => simp [renderLines, renderLine]
    | cons kv2 t2 =>
      rw [show renderLines (kv :: kv2 :: t2) =
          renderLine kv ++ ',' :: '\n' :: renderLines (kv2 :: t2) from rfl]
      simp only [List.length_append, List.length_cons]
      have := ih
      simp only [List.length_cons] at this ⊢
      omega

lemma parseEntryList_render (l : List (String × JVal)) :
    l ≠ [] → ∀ fuel, l.length ≤ fuel → ∀ rest,
      parseEntryList fuel (renderLines l ++ '\n' :: '}' :: rest) = some (l, rest) := by
  induction l with
  | nil => intro hl; exact absurd rfl hl
  | cons kv t ih =>
    intro _ fuel hfuel rest
    cases fuel with
    | zero => simp at hfuel
    | succ fuel =>
      cases t with
      | nil =>
        rw [show renderLines [kv] = renderLine kv from rfl]
        unfold parseEntryList
        rw [parseEntry_render kv ('\n' :: '}' :: rest) (by simp)]
        rfl
      | cons kv2 t2 =>
        rw [show renderLines (kv :: kv2 :: t2) =
            renderLine kv ++ ',' :: '\n' :: renderLines (kv2 :: t2) from rfl]
        rw [List.append_assoc]
        simp only [List.cons_append]
        unfold parseEntryList
        rw [parseEntry_render kv
          (',' :: '\n' :: (renderLines (kv2 :: t2) ++ '\n' :: '}' :: rest)) (by simp)]
        simp only [Option.some_bind, List.cons_append]
        rw [ih (by simp) fuel (by simp only [List.length_cons] at hfuel ⊢; omega) rest]
        rfl

lemma parseDumps_dumps (mo : Option (List (String × JVal))) :
    parseDumps (dumps mo) = some (mo.map (List.insertionSort keyLE)) := by
  cases mo with
  | none => rfl
  | some m =>
    show parseDumps ⟨dumpsObjChars (List.insertionSort keyLE m)⟩ =
      some (some (List.insertionSort keyLE m))
    generalize List.insertionSort keyLE m = l
    cases l with
    | nil => rfl
    | cons kv t =>
      show parseDumps ⟨'{' :: '\n' :: (renderLines (kv :: t) ++ '\n' :: ['}'])⟩ =
        some (some (kv :: t))
      show (match
          parseEntryList (renderLines (kv :: t) ++ '\n' :: ['}']).length
            (renderLines (kv :: t) ++ '\n' :: ['}']) with
        | some (es, []) => some (some es)
        | _ => none) = some (some (kv :: t))
      rw [parseEntryList_render (kv :: t) (by simp) _
        (by
          simp only [List.length_append, List.length_cons]
          have := renderLines_length_le (kv :: t)
          simp only [List.length_cons] at this ⊢
          omega) []]

/-- C6: serializing a record's selected-fields map is a stable round trip:
parsing the output of `as_json_string` succeeds, and re-serializing the
parsed object with the same lexicographic key sort and 4-space indentation
reproduces the identical string (for every flags value, the rejected ones —
serialized as `null` — included). -/
theorem as_json_string_roundtrip (w : WavMetadata) (flags : Int) :
    (parseDumps (as_json_string w flags)).map dumps = some (as_json_string w flags) := by
  unfold as_json_string
  cases h : as_dict w flags with
  | none => rw [parseDumps_dumps]; rfl
  | some m =>
    rw [parseDumps_dumps]
    simp only [Option.map_some']
    show some (dumps (some (List.insertionSort keyLE m))) = some (dumps (some m))
    congr 1
    show (⟨dumpsObjChars (List.insertionSort keyLE (List.insertionSort keyLE m))⟩ : String) =
      ⟨dumpsObjChars (List.insertionSort keyLE m)⟩
    rw [List.Sorted.insertionSort_eq (List.sorted_insertionSort keyLE m)]
